import Mathlib

/-!
Verification of the scroll-driven step-reveal component (`ScrollySection`)
of the AaaR landing page.

The component's core logic is the scroll handler: it divides the scroll
offset by the viewport height, takes the floor to get a section index and
the fractional part as in-section progress, and applies a 0.6 / 0.4
hysteresis decision to update the active step index, the animation flag
and the animation direction.  Scroll offsets and viewport heights are
modelled as rationals; this is exact for the algorithm's arithmetic
whenever the viewport height is nonzero.  A second model (`JSNum`) embeds
the JavaScript number semantics including Infinity and NaN, which is what
the handler actually computes with when the viewport height is zero.
-/

/-- The animation direction state, `'forward' | 'backward'` in the source. -/
inductive Direction : Type where
  | forward : Direction
  | backward : Direction
deriving DecidableEq, Repr

/-- The component state: the three `useState` hooks of `ScrollySection`. -/
structure ScrollState : Type where
  activeIndex : ℤ
  isAnimating : Bool
  animationDirection : Direction
deriving DecidableEq, Repr

/-- Mount-time state: `useState(0)`, `useState(false)`, `useState('forward')`. -/
def initialState : ScrollState :=
  { activeIndex := 0, isAnimating := false, animationDirection := Direction.forward }

/-- `const threshold = 0.6` in the source. -/
def threshold : ℚ := 6 / 10

/-- The literal `600` of `setTimeout(() => setIsAnimating(false), 600)`. -/
def animationDurationMs : ℕ := 600

/-- The `let newIndex = activeIndex; if ... else if ...` block of
`handleScroll`: `rawProgress = scrollPosition / windowHeight`,
`sectionIndex = Math.floor(rawProgress)`,
`sectionProgress = rawProgress - sectionIndex`; the candidate index is
`sectionIndex + 1` when `sectionProgress >= threshold` and
`sectionIndex < steps.length - 1`, else `sectionIndex` when
`sectionProgress < 1 - threshold`, else the current `activeIndex`. -/
def candidateIndex (numSteps : ℕ) (scrollPosition windowHeight : ℚ) (activeIndex : ℤ) : ℤ :=
  let rawProgress : ℚ := scrollPosition / windowHeight
  let sectionIndex : ℤ := ⌊rawProgress⌋
  let sectionProgress : ℚ := rawProgress - (sectionIndex : ℚ)
  if threshold ≤ sectionProgress ∧ sectionIndex < (numSteps : ℤ) - 1 then
    sectionIndex + 1
  else if sectionProgress < 1 - threshold then
    sectionIndex
  else
    activeIndex

/-- Result of one invocation of the handler: the new component state plus
the delay of the `setTimeout` it scheduled, if any. -/
structure HandlerResult : Type where
  state : ScrollState
  scheduledResetMs : Option ℕ
deriving DecidableEq, Repr

/-- The `handleScroll` closure of `ScrollySection`: computes the candidate
index; when it differs from the current `activeIndex` it sets the
animation direction (`forward` when the index grew), sets `isAnimating`
to `true`, stores the new index and schedules a 600ms reset; otherwise it
leaves all state untouched. -/
def handleScrollE (numSteps : ℕ) (scrollPosition windowHeight : ℚ)
    (st : ScrollState) : HandlerResult :=
  let newIndex : ℤ := candidateIndex numSteps scrollPosition windowHeight st.activeIndex
  if newIndex ≠ st.activeIndex then
    { state :=
        { activeIndex := newIndex,
          isAnimating := true,
          animationDirection :=
            if st.activeIndex < newIndex then Direction.forward else Direction.backward },
      scheduledResetMs := some animationDurationMs }
  else
    { state := st, scheduledResetMs := none }

/-- The state transformation of one `handleScroll` call. -/
def handleScroll (numSteps : ℕ) (scrollPosition windowHeight : ℚ)
    (st : ScrollState) : ScrollState :=
  (handleScrollE numSteps scrollPosition windowHeight st).state

/-- The `setTimeout` callback: `setIsAnimating(false)`. -/
def fireAnimationReset (st : ScrollState) : ScrollState :=
  { st with isAnimating := false }

/-- One scroll event at offset `s` (viewport height and step count fixed). -/
def scrollStep (numSteps : ℕ) (windowHeight : ℚ) (st : ScrollState) (s : ℚ) : ScrollState :=
  handleScroll numSteps s windowHeight st

/-- Process a list of scroll offsets in order. -/
def runScroll (numSteps : ℕ) (windowHeight : ℚ) (offsets : List ℚ) (st : ScrollState) :
    ScrollState :=
  offsets.foldl (scrollStep numSteps windowHeight) st

/-- The sequence of `activeIndex` values observed along a scroll run,
starting with the index of the given state. -/
def indexTrace (numSteps : ℕ) (windowHeight : ℚ) (offsets : List ℚ) (st : ScrollState) :
    List ℤ :=
  (List.scanl (scrollStep numSteps windowHeight) st offsets).map ScrollState.activeIndex

/-- Band invariant of a forward scan: the active index is in range and the
last processed offset `s` lies in the hysteresis band of `a`, that is
`a - 2/5 ≤ s / h < a + 3/5`. -/
def bandInv (numSteps : ℕ) (windowHeight : ℚ) (a : ℤ) (s : ℚ) : Prop :=
  0 ≤ a ∧ a ≤ (numSteps : ℤ) - 1 ∧
    (a : ℚ) - 2 / 5 ≤ s / windowHeight ∧ s / windowHeight < (a : ℚ) + 3 / 5

/-- A step of the scroll sequence, as in the `Step` interface of the
source: an id, a title, a body and an optional custom visual.  The
renderable content type is a parameter. -/
structure Step (α : Type) : Type where
  id : ℤ
  title : String
  body : String
  visual : Option α
deriving DecidableEq, Repr

/-- What the fixed visual area of `ScrollySection` displays: either the
step's custom visual, or the default title+body layout.  An absent
(`none`) title or body models an `undefined` text child, which renders as
nothing. -/
inductive Rendered (α : Type) : Type where
  | visual : α → Rendered α
  | titleBody : Option String → Option String → Rendered α
deriving DecidableEq, Repr

/-- `const currentStep = steps[activeIndex]`: JavaScript array indexing,
yielding `undefined` (here `none`) when the index is out of range. -/
def currentStep {α : Type} (steps : List (Step α)) (activeIndex : ℤ) : Option (Step α) :=
  if activeIndex < 0 then none else steps[activeIndex.toNat]?

/-- The content selection of the render: `currentStep?.visual || (default
layout with currentStep?.title and currentStep?.body)`. -/
def renderStep {α : Type} (steps : List (Step α)) (activeIndex : ℤ) : Rendered α :=
  match currentStep steps activeIndex with
  | some st =>
      match st.visual with
      | some v => Rendered.visual v
      | none => Rendered.titleBody (some st.title) (some st.body)
  | none => Rendered.titleBody none none

/-- JavaScript numbers, at the precision the handler's arithmetic needs:
a finite value (modelled exactly as a rational), the two infinities, and
NaN.  This is the model used to analyse the viewport-height-zero case,
where the division produces a non-finite value. -/
inductive JSNum : Type where
  | finite : ℚ → JSNum
  | posInf : JSNum
  | negInf : JSNum
  | nan : JSNum
deriving DecidableEq, Repr

/-- JavaScript division.  Finite by zero gives a signed infinity, `0/0`
gives NaN; NaN is absorbing; `Infinity/Infinity` is NaN. -/
def jsDiv : JSNum → JSNum → JSNum
  | JSNum.nan, _ => JSNum.nan
  | _, JSNum.nan => JSNum.nan
  | JSNum.finite a, JSNum.finite b =>
      if b = 0 then
        if a = 0 then JSNum.nan
        else if 0 < a then JSNum.posInf
        else JSNum.negInf
      else JSNum.finite (a / b)
  | JSNum.posInf, JSNum.finite b => if b < 0 then JSNum.negInf else JSNum.posInf
  | JSNum.negInf, JSNum.finite b => if b < 0 then JSNum.posInf else JSNum.negInf
  | JSNum.finite _, JSNum.posInf => JSNum.finite 0
  | JSNum.finite _, JSNum.negInf => JSNum.finite 0
  | _, _ => JSNum.nan

/-- `Math.floor`: floor of a finite value; infinities and NaN pass through. -/
def jsFloor : JSNum → JSNum
  | JSNum.finite q => JSNum.finite (⌊q⌋ : ℚ)
  | JSNum.posInf => JSNum.posInf
  | JSNum.negInf => JSNum.negInf
  | JSNum.nan => JSNum.nan

/-- JavaScript subtraction; `Infinity - Infinity` is NaN, NaN is absorbing. -/
def jsSub : JSNum → JSNum → JSNum
  | JSNum.nan, _ => JSNum.nan
  | _, JSNum.nan => JSNum.nan
  | JSNum.finite a, JSNum.finite b => JSNum.finite (a - b)
  | JSNum.posInf, JSNum.posInf => JSNum.nan
  | JSNum.posInf, _ => JSNum.posInf
  | JSNum.negInf, JSNum.negInf => JSNum.nan
  | JSNum.negInf, _ => JSNum.negInf
  | JSNum.finite _, JSNum.posInf => JSNum.negInf
  | JSNum.finite _, JSNum.negInf => JSNum.posInf

/-- JavaScript addition; `Infinity + (-Infinity)` is NaN, NaN is absorbing. -/
def jsAdd : JSNum → JSNum → JSNum
  | JSNum.nan, _ => JSNum.nan
  | _, JSNum.nan => JSNum.nan
  | JSNum.finite a, JSNum.finite b => JSNum.finite (a + b)
  | JSNum.posInf, JSNum.negInf => JSNum.nan
  | JSNum.posInf, _ => JSNum.posInf
  | JSNum.negInf, JSNum.posInf => JSNum.nan
  | JSNum.negInf, _ => JSNum.negInf
  | JSNum.finite _, JSNum.posInf => JSNum.posInf
  | JSNum.finite _, JSNum.negInf => JSNum.negInf

/-- JavaScript `<`: any comparison involving NaN is false. -/
def jsLt : JSNum → JSNum → Bool
  | JSNum.nan, _ => false
  | _, JSNum.nan => false
  | JSNum.finite a, JSNum.finite b => decide (a < b)
  | JSNum.finite _, JSNum.posInf => true
  | JSNum.finite _, JSNum.negInf => false
  | JSNum.posInf, _ => false
  | JSNum.negInf, JSNum.negInf => false
  | JSNum.negInf, _ => true

/-- JavaScript `>=`: false when either operand is NaN, otherwise the
negation of `<`. -/
def jsGe (a b : JSNum) : Bool :=
  if a = JSNum.nan ∨ b = JSNum.nan then false else !(jsLt a b)

/-- JavaScript strict numeric equality `===`: false when either operand
is NaN (`NaN === NaN` is false). -/
def jsStrictEq : JSNum → JSNum → Bool
  | JSNum.nan, _ => false
  | _, JSNum.nan => false
  | JSNum.finite a, JSNum.finite b => decide (a = b)
  | JSNum.posInf, JSNum.posInf => true
  | JSNum.negInf, JSNum.negInf => true
  | _, _ => false

/-- The component state with the active index kept as a raw JavaScript
number, for the analysis of non-finite propagation. -/
structure ScrollStateJS : Type where
  activeIndex : JSNum
  isAnimating : Bool
  animationDirection : Direction
deriving DecidableEq, Repr

/-- `rawProgress = scrollPosition / windowHeight` over JavaScript numbers. -/
def rawProgressJS (scrollPosition windowHeight : JSNum) : JSNum :=
  jsDiv scrollPosition windowHeight

/-- `sectionIndex = Math.floor(rawProgress)` over JavaScript numbers. -/
def sectionIndexJS (scrollPosition windowHeight : JSNum) : JSNum :=
  jsFloor (rawProgressJS scrollPosition windowHeight)

/-- `sectionProgress = rawProgress - sectionIndex` over JavaScript
numbers: the value the hysteresis decision compares against the
thresholds. -/
def sectionProgressJS (scrollPosition windowHeight : JSNum) : JSNum :=
  jsSub (rawProgressJS scrollPosition windowHeight)
    (sectionIndexJS scrollPosition windowHeight)

/-- `handleScroll` over JavaScript numbers, operator for operator:
the branch tests use JavaScript comparison semantics (false on NaN), and
the transition test is strict inequality `!==`. -/
def handleScrollJS (numSteps : ℕ) (scrollPosition windowHeight : JSNum)
    (st : ScrollStateJS) : ScrollStateJS :=
  let sectionIndex : JSNum := sectionIndexJS scrollPosition windowHeight
  let sectionProgress : JSNum := sectionProgressJS scrollPosition windowHeight
  let newIndex : JSNum :=
    if jsGe sectionProgress (JSNum.finite threshold) &&
        jsLt sectionIndex (JSNum.finite ((numSteps : ℚ) - 1)) then
      jsAdd sectionIndex (JSNum.finite 1)
    else if jsLt sectionProgress (JSNum.finite (1 - threshold)) then
      sectionIndex
    else
      st.activeIndex
  if !(jsStrictEq newIndex st.activeIndex) then
    { activeIndex := newIndex,
      isAnimating := true,
      animationDirection :=
        if jsLt st.activeIndex newIndex then Direction.forward else Direction.backward }
  else
    st

theorem candidateIndex_eq_ite (numSteps : ℕ) (s h : ℚ) (a : ℤ) :
    candidateIndex numSteps s h a =
      if threshold ≤ s / h - (⌊s / h⌋ : ℚ) ∧ ⌊s / h⌋ < (numSteps : ℤ) - 1 then ⌊s / h⌋ + 1
      else if s / h - (⌊s / h⌋ : ℚ) < 1 - threshold then ⌊s / h⌋
      else a := rfl

theorem handleScroll_activeIndex (numSteps : ℕ) (s h : ℚ) (st : ScrollState) :
    (handleScroll numSteps s h st).activeIndex =
      candidateIndex numSteps s h st.activeIndex := by
  unfold handleScroll handleScrollE
  by_cases hc : candidateIndex numSteps s h st.activeIndex = st.activeIndex <;>
    simp [hc]

theorem handleScroll_eq_self (numSteps : ℕ) (s h : ℚ) (st : ScrollState)
    (hfix : candidateIndex numSteps s h st.activeIndex = st.activeIndex) :
    handleScroll numSteps s h st = st := by
  unfold handleScroll handleScrollE
  simp [hfix]

theorem handleScroll_of_ne (numSteps : ℕ) (s h : ℚ) (st : ScrollState)
    (hne : candidateIndex numSteps s h st.activeIndex ≠ st.activeIndex) :
    handleScroll numSteps s h st =
      { activeIndex := candidateIndex numSteps s h st.activeIndex,
        isAnimating := true,
        animationDirection :=
          if st.activeIndex < candidateIndex numSteps s h st.activeIndex
          then Direction.forward else Direction.backward } := by
  unfold handleScroll handleScrollE
  simp [hne]

theorem candidateIndex_idem (numSteps : ℕ) (s h : ℚ) (a : ℤ) :
    candidateIndex numSteps s h (candidateIndex numSteps s h a) =
      candidateIndex numSteps s h a := by
  rw [candidateIndex_eq_ite, candidateIndex_eq_ite]
  by_cases h1 : threshold ≤ s / h - (⌊s / h⌋ : ℚ) ∧ ⌊s / h⌋ < (numSteps : ℤ) - 1
  · simp only [if_pos h1]
  · by_cases h2 : s / h - (⌊s / h⌋ : ℚ) < 1 - threshold
    · simp only [if_neg h1, if_pos h2]
    · simp only [if_neg h1, if_neg h2]

/-- Claim C10: on mount, before any recomputation, the state is fully
defined with `activeIndex = 0`, `isAnimating = false` and
`direction = forward`; `direction` already holds `forward` although no
transition has occurred. -/
theorem c10_initial_state :
    initialState.activeIndex = 0 ∧ initialState.isAnimating = false ∧
      initialState.animationDirection = Direction.forward :=
  ⟨rfl, rfl, rfl⟩

/-- Claim C8: with an empty steps list, indexing the current step yields
nothing (`undefined`), and the render tolerates the missing step by
showing no step content: no visual, and no title or body text. -/
theorem c8_empty_steps (α : Type) (i : ℤ) :
    currentStep ([] : List (Step α)) i = none ∧
      renderStep ([] : List (Step α)) i = Rendered.titleBody none none := by
  have h : currentStep ([] : List (Step α)) i = none := by
    unfold currentStep
    split <;> simp
  refine ⟨h, ?_⟩
  unfold renderStep
  rw [h]

/-- Claim C2: on every recomputation with nonzero viewport height, with
`sectionIndex = floor(rawProgress)` and
`sectionProgress = rawProgress - sectionIndex`, the new `activeIndex` is
`sectionIndex + 1` when `sectionProgress ≥ 0.6` and
`sectionIndex < N - 1`; otherwise `sectionIndex` when
`sectionProgress < 0.4`; otherwise the current `activeIndex` is retained,
for every current `activeIndex`. -/
theorem c2_hysteresis_decision (numSteps : ℕ) (s h : ℚ) (st : ScrollState)
    (hpos : 0 < h) :
    (handleScroll numSteps s h st).activeIndex =
      if (6 / 10 : ℚ) ≤ s / h - (⌊s / h⌋ : ℚ) ∧ ⌊s / h⌋ < (numSteps : ℤ) - 1 then
        ⌊s / h⌋ + 1
      else if s / h - (⌊s / h⌋ : ℚ) < 4 / 10 then ⌊s / h⌋
      else st.activeIndex := by
  rw [handleScroll_activeIndex, candidateIndex_eq_ite]
  norm_num [threshold]

/-- Witness for C2 at the spec's own example: two steps, viewport height
1000, offset 650: `sectionProgress = 0.65 ≥ 0.6`, so the index becomes 1. -/
theorem c2_witness :
    (0 : ℚ) < 1000 ∧
      (handleScroll 2 650 1000 initialState).activeIndex =
        (if (6 / 10 : ℚ) ≤ 650 / 1000 - (⌊(650 : ℚ) / 1000⌋ : ℚ) ∧
            ⌊(650 : ℚ) / 1000⌋ < (2 : ℤ) - 1 then ⌊(650 : ℚ) / 1000⌋ + 1
         else if (650 : ℚ) / 1000 - (⌊(650 : ℚ) / 1000⌋ : ℚ) < 4 / 10 then
           ⌊(650 : ℚ) / 1000⌋
         else initialState.activeIndex) :=
  ⟨by norm_num, c2_hysteresis_decision 2 650 1000 initialState (by norm_num)⟩

/-- Claim C5: on every transition the direction is `forward` exactly when
the candidate index exceeds the current one, `backward` otherwise. -/
theorem c5_direction_flag (numSteps : ℕ) (s h : ℚ) (st : ScrollState)
    (hpos : 0 < h)
    (htrans : (handleScroll numSteps s h st).activeIndex ≠ st.activeIndex) :
    (handleScroll numSteps s h st).animationDirection =
      (if st.activeIndex < (handleScroll numSteps s h st).activeIndex
       then Direction.forward else Direction.backward) := by
  rw [handleScroll_activeIndex] at htrans ⊢
  rw [handleScroll_of_ne numSteps s h st htrans]

/-- Witness for C5: with three steps and viewport height 1000, offset 1650
moves index 1 to 2 with `direction = forward`, and offset 1350 moves
index 2 to 1 with `direction = backward`. -/
theorem c5_witness :
    (handleScroll 3 1650 1000 ⟨1, false, Direction.backward⟩).activeIndex = 2 ∧
      (handleScroll 3 1650 1000 ⟨1, false, Direction.backward⟩).animationDirection =
        Direction.forward ∧
      (handleScroll 3 1350 1000 ⟨2, false, Direction.forward⟩).activeIndex = 1 ∧
      (handleScroll 3 1350 1000 ⟨2, false, Direction.forward⟩).animationDirection =
        Direction.backward := by
  have ha1 : (handleScroll 3 1650 1000 ⟨1, false, Direction.backward⟩).activeIndex = 2 := by
    norm_num [handleScroll, handleScrollE, candidateIndex, threshold]
  have ha2 : (handleScroll 3 1350 1000 ⟨2, false, Direction.forward⟩).activeIndex = 1 := by
    norm_num [handleScroll, handleScrollE, candidateIndex, threshold]
  have hd1 := c5_direction_flag 3 1650 1000 ⟨1, false, Direction.backward⟩ (by norm_num)
    (by rw [ha1]; decide)
  have hd2 := c5_direction_flag 3 1350 1000 ⟨2, false, Direction.forward⟩ (by norm_num)
    (by rw [ha2]; decide)
  rw [ha1] at hd1
  rw [ha2] at hd2
  norm_num at hd1 hd2
  exact ⟨ha1, hd1, ha2, hd2⟩

/-- Claim C9: for a nonempty steps list, positive viewport height and a
negative scroll offset within two fifths of a viewport height above the
top (elastic overscroll), the floor of the negative raw progress is -1,
the section progress is at least 0.6, and the forward branch makes the
active index 0, from every starting state. -/
theorem c9_negative_overscroll (numSteps : ℕ) (s h : ℚ) (st : ScrollState)
    (hpos : 0 < h) (hN : 1 ≤ numSteps) (hlo : -(2 / 5) * h ≤ s) (hhi : s < 0) :
    ⌊s / h⌋ = -1 ∧ (6 / 10 : ℚ) ≤ s / h - (⌊s / h⌋ : ℚ) ∧
      (handleScroll numSteps s h st).activeIndex = 0 := by
  have hr0 : -(2 / 5 : ℚ) ≤ s / h := by
    rw [le_div_iff hpos]
    linarith
  have hr1 : (-1 : ℚ) ≤ s / h := by linarith
  have hr2 : s / h < 0 := div_neg_of_neg_of_pos hhi hpos
  have hfl : ⌊s / h⌋ = -1 := by
    rw [Int.floor_eq_iff]
    constructor
    · exact_mod_cast hr1
    · push_cast
      linarith
  have hsp : (6 / 10 : ℚ) ≤ s / h - (⌊s / h⌋ : ℚ) := by
    rw [hfl]
    push_cast
    linarith
  refine ⟨hfl, hsp, ?_⟩
  rw [handleScroll_activeIndex, candidateIndex_eq_ite, if_pos]
  · rw [hfl]
    ring
  · constructor
    · unfold threshold
      exact hsp
    · rw [hfl]
      omega

/-- Witness for C9: two steps, viewport height 1000, overscroll offset
-200 from a state at index 1: the recomputation returns to index 0. -/
theorem c9_witness :
    (0 : ℚ) < 1000 ∧ (1 : ℕ) ≤ 2 ∧ -(2 / 5 : ℚ) * 1000 ≤ -200 ∧ (-200 : ℚ) < 0 ∧
      ⌊(-200 : ℚ) / 1000⌋ = -1 ∧
      (6 / 10 : ℚ) ≤ (-200 : ℚ) / 1000 - (⌊(-200 : ℚ) / 1000⌋ : ℚ) ∧
      (handleScroll 2 (-200) 1000 ⟨1, true, Direction.backward⟩).activeIndex = 0 := by
  have h := c9_negative_overscroll 2 (-200) 1000 ⟨1, true, Direction.backward⟩
    (by norm_num) (by norm_num) (by norm_num) (by norm_num)
  exact ⟨by norm_num, by norm_num, by norm_num, by norm_num, h.1, h.2.1, h.2.2⟩

/-- Claim C1 counterexample: two steps, viewport height 1000, scroll
offset 5000 (a jump past the end of the scroll range).  The handler
applies no clamping: the computed section index 5 is written through and
the resulting active index is 5, outside the valid range, whose largest
valid index is 1. -/
theorem c1_counterexample :
    (handleScroll 2 5000 1000 initialState).activeIndex = 5 ∧
      2 ≤ (handleScroll 2 5000 1000 initialState).activeIndex := by
  have h : (handleScroll 2 5000 1000 initialState).activeIndex = 5 := by
    norm_num [handleScroll, handleScrollE, candidateIndex, threshold, initialState]
  exact ⟨h, by rw [h]; norm_num⟩

/-- Claim C1 amended: the section index is `floor(s/h)` with no clamping
applied; for scroll offsets inside the component's scroll range
(`0 ≤ s < N·h`) it lies in `[0, N-1]` on its own, and the recomputed
active index is then a valid index whenever the current one is — also
when the offset jumps by more than one viewport height in one event.
Beyond `N·h` the unclamped index is written through (see the
counterexample). -/
theorem c1_index_in_range (numSteps : ℕ) (s h : ℚ) (st : ScrollState)
    (hpos : 0 < h) (hs : 0 ≤ s) (hlt : s < (numSteps : ℚ) * h)
    (hlo : 0 ≤ st.activeIndex) (hhi : st.activeIndex ≤ (numSteps : ℤ) - 1) :
    (0 ≤ ⌊s / h⌋ ∧ ⌊s / h⌋ ≤ (numSteps : ℤ) - 1) ∧
      0 ≤ (handleScroll numSteps s h st).activeIndex ∧
      (handleScroll numSteps s h st).activeIndex ≤ (numSteps : ℤ) - 1 := by
  have hr0 : 0 ≤ s / h := div_nonneg hs hpos.le
  have hrN : s / h < (numSteps : ℚ) := (div_lt_iff hpos).mpr hlt
  have h0 : 0 ≤ ⌊s / h⌋ := Int.floor_nonneg.mpr hr0
  have h1 : ⌊s / h⌋ < (numSteps : ℤ) := by
    rw [Int.floor_lt]
    exact_mod_cast hrN
  refine ⟨⟨h0, by omega⟩, ?_⟩
  rw [handleScroll_activeIndex, candidateIndex_eq_ite]
  by_cases hc1 : threshold ≤ s / h - (⌊s / h⌋ : ℚ) ∧ ⌊s / h⌋ < (numSteps : ℤ) - 1
  · rw [if_pos hc1]
    omega
  · rw [if_neg hc1]
    by_cases hc2 : s / h - (⌊s / h⌋ : ℚ) < 1 - threshold
    · rw [if_pos hc2]
      omega
    · rw [if_neg hc2]
      exact ⟨hlo, hhi⟩

/-- Witness for the amended C1: two steps, viewport height 1000, offset
1999 (just under the end of the range): the index stays within `[0, 1]`. -/
theorem c1_witness :
    (0 : ℚ) < 1000 ∧ (0 : ℚ) ≤ 1999 ∧ (1999 : ℚ) < (2 : ℕ) * 1000 ∧
      0 ≤ (handleScroll 2 1999 1000 initialState).activeIndex ∧
      (handleScroll 2 1999 1000 initialState).activeIndex ≤ (2 : ℤ) - 1 := by
  have h := c1_index_in_range 2 1999 1000 initialState (by norm_num) (by norm_num)
    (by norm_num) (by norm_num [initialState]) (by norm_num [initialState])
  exact ⟨by norm_num, by norm_num, by norm_num, h.2.1, h.2.2⟩

/-- Claim C3 counterexample: with two steps, viewport height 1000 and
offset 500 the section progress 0.5 lies in the dead zone, so the
recomputed index equals the starting state's index: starting from index 0
yields 0 while starting from index 1 yields 1 — the result is not
independent of the starting `ScrollState`. -/
theorem c3_counterexample :
    (handleScroll 2 500 1000 initialState).activeIndex = 0 ∧
      (handleScroll 2 500 1000 ⟨1, false, Direction.forward⟩).activeIndex = 1 := by
  constructor <;>
    norm_num [handleScroll, handleScrollE, candidateIndex, threshold, initialState]

/-- Claim C3 amended: the handler is idempotent-safe to call redundantly —
a second invocation with the same scroll offset, viewport height and step
count, starting from the state the first invocation produced, returns
that state unchanged.  (The result is not independent of the starting
state: in the dead zone the current index is retained, see the
counterexample.) -/
theorem c3_idempotent (numSteps : ℕ) (s h : ℚ) (st : ScrollState) (hpos : 0 < h) :
    handleScroll numSteps s h (handleScroll numSteps s h st) =
      handleScroll numSteps s h st := by
  apply handleScroll_eq_self
  rw [handleScroll_activeIndex]
  exact candidateIndex_idem numSteps s h st.activeIndex

/-- Witness for the amended C3: a redundant second call after the
transition to index 1 leaves the state unchanged. -/
theorem c3_witness :
    (0 : ℚ) < 1000 ∧
      handleScroll 2 650 1000 (handleScroll 2 650 1000 initialState) =
        handleScroll 2 650 1000 initialState :=
  ⟨by norm_num, c3_idempotent 2 650 1000 initialState (by norm_num)⟩

/-- Claim C6: after every transition `isAnimating` is `true` and a reset
is scheduled with the fixed 600ms delay; the scheduled callback sets
`isAnimating` to `false` — also when it fires after a later transition
(early reset); and a recomputation that causes no transition leaves the
whole state, `isAnimating` included, exactly as it was and schedules
nothing. -/
theorem c6_animation_timer (numSteps : ℕ) (s h : ℚ) (st : ScrollState)
    (hpos : 0 < h) :
    ((handleScrollE numSteps s h st).state.activeIndex ≠ st.activeIndex →
      (handleScrollE numSteps s h st).state.isAnimating = true ∧
        (handleScrollE numSteps s h st).scheduledResetMs = some animationDurationMs) ∧
    (fireAnimationReset (handleScrollE numSteps s h st).state).isAnimating = false ∧
    animationDurationMs = 600 ∧
    ((handleScrollE numSteps s h st).state.activeIndex = st.activeIndex →
      (handleScrollE numSteps s h st).state = st ∧
        (handleScrollE numSteps s h st).scheduledResetMs = none) := by
  unfold handleScrollE fireAnimationReset
  by_cases hc : candidateIndex numSteps s h st.activeIndex = st.activeIndex <;>
    simp [hc, animationDurationMs]

/-- Witness for C6 at a transition: two steps, viewport height 1000,
offset 650 from the initial state: `isAnimating` becomes `true`, a 600ms
reset is scheduled, and firing the scheduled callback clears the flag. -/
theorem c6_witness :
    (0 : ℚ) < 1000 ∧
      (handleScrollE 2 650 1000 initialState).state.isAnimating = true ∧
      (handleScrollE 2 650 1000 initialState).scheduledResetMs = some 600 ∧
      (fireAnimationReset (handleScrollE 2 650 1000 initialState).state).isAnimating =
        false := by
  have h := c6_animation_timer 2 650 1000 initialState (by norm_num)
  have hne : (handleScrollE 2 650 1000 initialState).state.activeIndex ≠
      initialState.activeIndex := by
    norm_num [handleScrollE, candidateIndex, threshold, initialState]
  exact ⟨by norm_num, (h.1 hne).1, by rw [(h.1 hne).2]; rfl, h.2.1⟩

/-- Claim C7 counterexample: the division is not guarded.  At viewport
height 0 (offset 500) `rawProgress` is `Infinity` and the NaN it induces
does propagate into the index computation: `sectionProgress` is `NaN`. -/
theorem c7_counterexample :
    rawProgressJS (JSNum.finite 500) (JSNum.finite 0) = JSNum.posInf ∧
      sectionProgressJS (JSNum.finite 500) (JSNum.finite 0) = JSNum.nan := by
  constructor <;> decide

/-- Claim C7 amended: there is no guard, and `NaN`/`Infinity` do reach
the index computation; but because every JavaScript comparison with `NaN`
is false, neither hysteresis branch fires, so a recomputation with
viewport height 0 leaves the whole state — in particular a finite,
in-range `activeIndex` — unchanged, for every scroll offset and every
current state with a finite active index. -/
theorem c7_zero_height (numSteps : ℕ) (s q : ℚ) (st : ScrollStateJS)
    (hk : st.activeIndex = JSNum.finite q) :
    handleScrollJS numSteps (JSNum.finite s) (JSNum.finite 0) st = st := by
  have hnan : sectionProgressJS (JSNum.finite s) (JSNum.finite 0) = JSNum.nan := by
    rcases lt_trichotomy s 0 with hs | hs | hs
    · have hdiv : rawProgressJS (JSNum.finite s) (JSNum.finite 0) = JSNum.negInf := by
        unfold rawProgressJS
        simp [jsDiv, hs.ne, not_lt.mpr hs.le]
      unfold sectionProgressJS sectionIndexJS
      rw [hdiv]
      decide
    · subst hs
      have hdiv : rawProgressJS (JSNum.finite 0) (JSNum.finite 0) = JSNum.nan := by
        unfold rawProgressJS
        simp [jsDiv]
      unfold sectionProgressJS sectionIndexJS
      rw [hdiv]
      decide
    · have hdiv : rawProgressJS (JSNum.finite s) (JSNum.finite 0) = JSNum.posInf := by
        unfold rawProgressJS
        simp [jsDiv, ne_of_gt hs, hs]
      unfold sectionProgressJS sectionIndexJS
      rw [hdiv]
      decide
  unfold handleScrollJS
  rw [hnan, hk]
  simp [jsGe, jsLt, jsStrictEq]

theorem candidateIndex_step (numSteps : ℕ) (s' windowHeight : ℚ) (a : ℤ)
    (ha0 : 0 ≤ a) (haN : a ≤ (numSteps : ℤ) - 1)
    (hlo : (a : ℚ) - 2 / 5 < s' / windowHeight)
    (hhi : s' / windowHeight < (a : ℚ) + 7 / 5)
    (hub : s' / windowHeight ≤ (numSteps : ℚ) - 1) :
    (a ≤ candidateIndex numSteps s' windowHeight a ∧
        candidateIndex numSteps s' windowHeight a ≤ a + 1) ∧
      (0 ≤ candidateIndex numSteps s' windowHeight a ∧
        candidateIndex numSteps s' windowHeight a ≤ (numSteps : ℤ) - 1) ∧
      ((candidateIndex numSteps s' windowHeight a : ℚ) - 2 / 5 ≤ s' / windowHeight ∧
        s' / windowHeight < (candidateIndex numSteps s' windowHeight a : ℚ) + 3 / 5) ∧
      (candidateIndex numSteps s' windowHeight a = a + 1 ↔
        (a : ℚ) + 3 / 5 ≤ s' / windowHeight) := by
  rw [candidateIndex_eq_ite]
  set r' : ℚ := s' / windowHeight with hr
  rcases lt_or_le r' (a : ℚ) with hc1 | hc1
  · have hfl : ⌊r'⌋ = a - 1 := by
      rw [Int.floor_eq_iff]
      push_cast
      constructor <;> linarith
    have hcond : threshold ≤ r' - (⌊r'⌋ : ℚ) ∧ ⌊r'⌋ < (numSteps : ℤ) - 1 := by
      rw [hfl]
      constructor
      · unfold threshold
        push_cast
        linarith
      · omega
    rw [if_pos hcond, hfl]
    have he : a - 1 + 1 = a := by ring
    rw [he]
    refine ⟨⟨le_refl a, by omega⟩, ⟨ha0, haN⟩, ⟨by linarith, by linarith⟩, ?_⟩
    constructor
    · intro hx
      omega
    · intro hx
      exfalso
      linarith
  · rcases lt_or_le r' ((a : ℚ) + 3 / 5) with hc2 | hc2
    · have hfl : ⌊r'⌋ = a := by
        rw [Int.floor_eq_iff]
        push_cast
        constructor <;> linarith
      have hcond : ¬(threshold ≤ r' - (⌊r'⌋ : ℚ) ∧ ⌊r'⌋ < (numSteps : ℤ) - 1) := by
        rw [hfl]
        intro hx
        have h1 := hx.1
        unfold threshold at h1
        linarith
      rw [if_neg hcond, hfl, ite_self]
      refine ⟨⟨le_refl a, by omega⟩, ⟨ha0, haN⟩, ⟨by linarith, by linarith⟩, ?_⟩
      constructor
      · intro hx
        omega
      · intro hx
        exfalso
        linarith
    · rcases lt_or_le r' ((a : ℚ) + 1) with hc3 | hc3
      · have hfl : ⌊r'⌋ = a := by
          rw [Int.floor_eq_iff]
          push_cast
          constructor <;> linarith
        have haN2 : a < (numSteps : ℤ) - 1 := by
          have hq : (a : ℚ) < ((numSteps : ℤ) - 1 : ℤ) := by
            push_cast
            linarith
          exact_mod_cast hq
        have hcond : threshold ≤ r' - (⌊r'⌋ : ℚ) ∧ ⌊r'⌋ < (numSteps : ℤ) - 1 := by
          rw [hfl]
          refine ⟨?_, haN2⟩
          unfold threshold
          linarith
        rw [if_pos hcond, hfl]
        refine ⟨⟨by omega, le_refl _⟩, ⟨by omega, by omega⟩,
          ⟨by push_cast; linarith, by push_cast; linarith⟩, ?_⟩
        exact ⟨fun _ => hc2, fun _ => rfl⟩
      · have hfl : ⌊r'⌋ = a + 1 := by
          rw [Int.floor_eq_iff]
          push_cast
          constructor <;> linarith
        have haN2 : a + 1 ≤ (numSteps : ℤ) - 1 := by
          have hq : (a : ℚ) + 1 ≤ ((numSteps : ℤ) - 1 : ℤ) := by
            push_cast
            linarith
          exact_mod_cast hq
        have hcond : ¬(threshold ≤ r' - (⌊r'⌋ : ℚ) ∧ ⌊r'⌋ < (numSteps : ℤ) - 1) := by
          rw [hfl]
          intro hx
          have h1 := hx.1
          unfold threshold at h1
          push_cast at h1
          linarith
        have hcond2 : r' - (⌊r'⌋ : ℚ) < 1 - threshold := by
          rw [hfl]
          unfold threshold
          push_cast
          linarith
        rw [if_neg hcond, if_pos hcond2, hfl]
        refine ⟨⟨by omega, le_refl _⟩, ⟨by omega, haN2⟩,
          ⟨by push_cast; linarith, by push_cast; linarith⟩, ?_⟩
        constructor
        · intro hx
          linarith
        · intro hx
          rfl

theorem scroll_step_inv (numSteps : ℕ) (windowHeight s s' : ℚ) (st : ScrollState)
    (hpos : 0 < windowHeight)
    (hinv : bandInv numSteps windowHeight st.activeIndex s)
    (hlt : s < s') (hd : s' - s ≤ 4 / 5 * windowHeight)
    (hub : s' ≤ ((numSteps : ℚ) - 1) * windowHeight) :
    bandInv numSteps windowHeight
        (handleScroll numSteps s' windowHeight st).activeIndex s' ∧
      (st.activeIndex ≤ (handleScroll numSteps s' windowHeight st).activeIndex ∧
        (handleScroll numSteps s' windowHeight st).activeIndex ≤ st.activeIndex + 1) ∧
      ((handleScroll numSteps s' windowHeight st).activeIndex = st.activeIndex + 1 ↔
        ((st.activeIndex : ℚ) + 3 / 5) * windowHeight ≤ s') := by
  obtain ⟨ha0, haN, hrlo, hrhi⟩ := hinv
  have hdiff : s' / windowHeight - s / windowHeight = (s' - s) / windowHeight :=
    div_sub_div_same s' s windowHeight
  have hrr : s / windowHeight < s' / windowHeight := by
    have hq : 0 < (s' - s) / windowHeight := div_pos (by linarith) hpos
    linarith
  have hstep : s' / windowHeight - s / windowHeight ≤ 4 / 5 := by
    rw [hdiff, div_le_iff hpos]
    linarith
  have hub' : s' / windowHeight ≤ (numSteps : ℚ) - 1 := by
    rw [div_le_iff hpos]
    exact hub
  have hlo' : (st.activeIndex : ℚ) - 2 / 5 < s' / windowHeight := lt_of_le_of_lt hrlo hrr
  have hhi' : s' / windowHeight < (st.activeIndex : ℚ) + 7 / 5 := by linarith
  have hc := candidateIndex_step numSteps s' windowHeight st.activeIndex ha0 haN hlo' hhi' hub'
  rw [handleScroll_activeIndex]
  obtain ⟨hA, hB, hC, hD⟩ := hc
  refine ⟨⟨hB.1, hB.2, hC.1, hC.2⟩, hA, ?_⟩
  rw [hD]
  exact le_div_iff hpos

theorem indexTrace_cons (numSteps : ℕ) (windowHeight x : ℚ) (t : List ℚ)
    (st : ScrollState) :
    indexTrace numSteps windowHeight (x :: t) st =
      st.activeIndex ::
        indexTrace numSteps windowHeight t (scrollStep numSteps windowHeight st x) := by
  unfold indexTrace
  rw [List.scanl_cons]
  rfl

theorem indexTrace_head (numSteps : ℕ) (windowHeight : ℚ) (offsets : List ℚ)
    (st : ScrollState) :
    (indexTrace numSteps windowHeight offsets st).head? = some st.activeIndex := by
  cases offsets with
  | nil => rfl
  | cons x t =>
      rw [indexTrace_cons]
      rfl

theorem indexTrace_getLast (numSteps : ℕ) (windowHeight : ℚ) :
    ∀ (offsets : List ℚ) (st : ScrollState),
      (indexTrace numSteps windowHeight offsets st).getLast? =
        some ((runScroll numSteps windowHeight offsets st).activeIndex) := by
  intro offsets
  induction offsets with
  | nil =>
      intro st
      rfl
  | cons x t ih =>
      intro st
      rw [indexTrace_cons]
      cases t with
      | nil => rfl
      | cons y u =>
          have h1 := indexTrace_cons numSteps windowHeight y u
            (scrollStep numSteps windowHeight st x)
          rw [h1, List.getLast?_cons_cons, ← h1,
            ih (scrollStep numSteps windowHeight st x)]
          rfl

theorem mem_of_unit_chain :
    ∀ (l : List ℤ) (x y : ℤ),
      List.Chain' (fun a b => a ≤ b ∧ b ≤ a + 1) l →
      l.head? = some x → l.getLast? = some y →
      ∀ j : ℤ, x ≤ j → j ≤ y → j ∈ l := by
  intro l
  induction l with
  | nil =>
      intro x y _ hx _ j _ _
      simp at hx
  | cons a t ih =>
      intro x y hch hx hy j hxj hjy
      have hax : a = x := by simpa using hx
      cases t with
      | nil =>
          have hay : a = y := by simpa using hy
          have hj : j = a := by omega
          rw [hj]
          exact List.mem_cons_self a []
      | cons b u =>
          rw [List.chain'_cons] at hch
          obtain ⟨⟨hab1, hab2⟩, hch2⟩ := hch
          by_cases hja : j = a
          · rw [hja]
            exact List.mem_cons_self a (b :: u)
          · have hbj : b ≤ j := by omega
            have hlast : (b :: u).getLast? = some y := by
              rw [← List.getLast?_cons_cons (a := a)]
              exact hy
            have hmem := ih b y hch2 rfl hlast j hbj hjy
            exact List.mem_cons_of_mem a hmem

theorem run_inv (numSteps : ℕ) (windowHeight : ℚ) (hpos : 0 < windowHeight) :
    ∀ (offsets : List ℚ) (st : ScrollState) (s : ℚ),
      bandInv numSteps windowHeight st.activeIndex s →
      List.Chain' (fun x y => x < y ∧ y - x ≤ 4 / 5 * windowHeight) (s :: offsets) →
      (∀ x ∈ offsets, x ≤ ((numSteps : ℚ) - 1) * windowHeight) →
      List.Chain' (fun a b => a ≤ b ∧ b ≤ a + 1)
          (indexTrace numSteps windowHeight offsets st) ∧
        ∃ t : ℚ, (s :: offsets).getLast? = some t ∧
          bandInv numSteps windowHeight
            (runScroll numSteps windowHeight offsets st).activeIndex t := by
  intro offsets
  induction offsets with
  | nil =>
      intro st s hinv _ _
      exact ⟨List.chain'_singleton _, s, rfl, hinv⟩
  | cons x t ih =>
      intro st s hinv hch hmem
      rw [List.chain'_cons] at hch
      obtain ⟨⟨hsx1, hsx2⟩, hch2⟩ := hch
      have hxub : x ≤ ((numSteps : ℚ) - 1) * windowHeight :=
        hmem x (List.mem_cons_self x t)
      have hstep := scroll_step_inv numSteps windowHeight s x st hpos hinv hsx1 hsx2 hxub
      obtain ⟨hinv2, ⟨hle1, hle2⟩, _⟩ := hstep
      have hmem2 : ∀ z ∈ t, z ≤ ((numSteps : ℚ) - 1) * windowHeight :=
        fun z hz => hmem z (List.mem_cons_of_mem x hz)
      have hih := ih (scrollStep numSteps windowHeight st x) x hinv2 hch2 hmem2
      obtain ⟨htr, u, hu1, hu2⟩ := hih
      constructor
      · rw [indexTrace_cons]
        rw [List.chain'_cons']
        constructor
        · intro b hb
          rw [indexTrace_head] at hb
          have hb' : b = (scrollStep numSteps windowHeight st x).activeIndex := by
            have hb2 := hb
            simp at hb2
            exact hb2.symm
          rw [hb']
          exact ⟨hle1, hle2⟩
        · exact htr
      · refine ⟨u, ?_, hu2⟩
        rw [List.getLast?_cons_cons]
        exact hu1

/-- Claim C4 counterexample: three steps, viewport height 1000, strictly
increasing offsets 0, 590, 1450, 1700, 2000 covering the full range.
Every per-event delta (590, 860, 250, 300) is smaller than one viewport
height, so no band is skipped, yet the index trace is
`[0, 0, 0, 0, 2, 2]`: index 1 is never visited, and one transition jumps
from 0 directly to 2 — the offset 1450 lands in band 1's dead zone, where
the stale index 0 is retained. -/
theorem c4_counterexample :
    indexTrace 3 1000 [0, 590, 1450, 1700, 2000] initialState = [0, 0, 0, 0, 2, 2] ∧
      List.count 1 (indexTrace 3 1000 [0, 590, 1450, 1700, 2000] initialState) = 0 := by
  have h : indexTrace 3 1000 [0, 590, 1450, 1700, 2000] initialState =
      [0, 0, 0, 0, 2, 2] := by
    norm_num [indexTrace, scrollStep, handleScroll, handleScrollE, candidateIndex,
      threshold, initialState, List.scanl]
  refine ⟨h, ?_⟩
  rw [h]
  rfl

/-- Claim C4 amended: starting from the mount state and processing a
strictly increasing offset sequence that starts at 0, ends at the full
scroll range `(N-1)·h`, stays within it, and whose per-event deltas are at
most `0.8·h` (four fifths of a viewport height — the sharp bound; up to a
full viewport height is not enough, see the counterexample): the active
index never decreases, moves by at most one step per event, starts at 0
and ends at `N-1`, visiting every index `0..N-1` in order (each as one
contiguous run, i.e. exactly once); and a transition from the band
invariant occurs exactly when the offset first reaches 0.6 of the way
through the current band, `(k + 3/5)·h`. -/
theorem c4_monotonic_scan (numSteps : ℕ) (windowHeight : ℚ) (offsets : List ℚ)
    (hpos : 0 < windowHeight) (hN : 1 ≤ numSteps)
    (hhead : offsets.head? = some 0)
    (hchain : List.Chain' (fun x y => x < y ∧ y - x ≤ 4 / 5 * windowHeight) offsets)
    (hmem : ∀ x ∈ offsets, x ≤ ((numSteps : ℚ) - 1) * windowHeight)
    (hlast : offsets.getLast? = some (((numSteps : ℚ) - 1) * windowHeight)) :
    List.Chain' (fun a b => a ≤ b ∧ b ≤ a + 1)
        (indexTrace numSteps windowHeight offsets initialState) ∧
      (indexTrace numSteps windowHeight offsets initialState).head? = some 0 ∧
      (indexTrace numSteps windowHeight offsets initialState).getLast? =
        some ((numSteps : ℤ) - 1) ∧
      (∀ j : ℤ, 0 ≤ j → j ≤ (numSteps : ℤ) - 1 →
        j ∈ indexTrace numSteps windowHeight offsets initialState) ∧
      (∀ (s s' : ℚ) (st : ScrollState),
        bandInv numSteps windowHeight st.activeIndex s → s < s' →
        s' - s ≤ 4 / 5 * windowHeight → s' ≤ ((numSteps : ℚ) - 1) * windowHeight →
        ((handleScroll numSteps s' windowHeight st).activeIndex = st.activeIndex + 1 ↔
          ((st.activeIndex : ℚ) + 3 / 5) * windowHeight ≤ s')) := by
  cases offsets with
  | nil => simp at hhead
  | cons x rest =>
      have hx : x = 0 := by simpa using hhead
      subst hx
      have hN' : (1 : ℤ) ≤ (numSteps : ℤ) := by exact_mod_cast hN
      have hfirst : scrollStep numSteps windowHeight initialState 0 = initialState := by
        unfold scrollStep
        apply handleScroll_eq_self
        rw [candidateIndex_eq_ite]
        norm_num [threshold, initialState]
      have hbase : bandInv numSteps windowHeight initialState.activeIndex 0 := by
        have h0 : initialState.activeIndex = 0 := rfl
        rw [h0]
        unfold bandInv
        norm_num
        omega
      obtain ⟨htr, t, hlastt, hband⟩ := run_inv numSteps windowHeight hpos rest
        initialState 0 hbase hchain (fun z hz => hmem z (List.mem_cons_of_mem 0 hz))
      have htrace_eq : indexTrace numSteps windowHeight (0 :: rest) initialState =
          initialState.activeIndex :: indexTrace numSteps windowHeight rest initialState := by
        rw [indexTrace_cons, hfirst]
      have ht : t = ((numSteps : ℚ) - 1) * windowHeight := by
        have h2 : some t = some (((numSteps : ℚ) - 1) * windowHeight) := by
          rw [← hlastt, hlast]
        exact Option.some.inj h2
      subst ht
      have hrunfold : runScroll numSteps windowHeight (0 :: rest) initialState =
          runScroll numSteps windowHeight rest initialState := by
        unfold runScroll
        rw [List.foldl_cons]
        rw [hfirst]
      have hfq : ((numSteps : ℚ) - 1) * windowHeight / windowHeight =
          (numSteps : ℚ) - 1 := mul_div_cancel_right₀ _ hpos.ne'
      obtain ⟨hband0, hbandN, hbandlo, hbandhi⟩ := hband
      rw [hfq] at hbandhi
      have hfinal : (runScroll numSteps windowHeight rest initialState).activeIndex =
          (numSteps : ℤ) - 1 := by
        have hq2 : (((numSteps : ℤ) - 2 : ℤ) : ℚ) <
            ((runScroll numSteps windowHeight rest initialState).activeIndex : ℚ) := by
          push_cast
          linarith
        have h2 : (numSteps : ℤ) - 2 <
            (runScroll numSteps windowHeight rest initialState).activeIndex := by
          exact_mod_cast hq2
        omega
      have hc1 : List.Chain' (fun a b => a ≤ b ∧ b ≤ a + 1)
          (indexTrace numSteps windowHeight (0 :: rest) initialState) := by
        rw [htrace_eq, List.chain'_cons']
        constructor
        · intro b hb
          rw [indexTrace_head] at hb
          have hb' : b = initialState.activeIndex := by
            have hb2 := hb
            simp at hb2
            exact hb2.symm
          rw [hb']
          omega
        · exact htr
      have hc2 : (indexTrace numSteps windowHeight (0 :: rest) initialState).head? =
          some 0 := by
        rw [htrace_eq]
        rfl
      have hc3 : (indexTrace numSteps windowHeight (0 :: rest) initialState).getLast? =
          some ((numSteps : ℤ) - 1) := by
        rw [indexTrace_getLast, hrunfold, hfinal]
      refine ⟨hc1, hc2, hc3, ?_, ?_⟩
      · intro j hj0 hjN
        exact mem_of_unit_chain _ 0 ((numSteps : ℤ) - 1) hc1 hc2 hc3 j hj0 hjN
      · intro s s' st hinv hlt hd hub
        exact (scroll_step_inv numSteps windowHeight s s' st hpos hinv hlt hd hub).2.2

/-- Witness for the amended C4: two steps, viewport height 1000, offsets
0, 400, 800, 1000 (deltas at most 800 = 0.8 of the viewport height): the
trace starts at index 0, ends at index 1, and visits both indices. -/
theorem c4_witness :
    (0 : ℚ) < 1000 ∧
      (indexTrace 2 1000 [0, 400, 800, 1000] initialState).head? = some 0 ∧
      (indexTrace 2 1000 [0, 400, 800, 1000] initialState).getLast? =
        some ((2 : ℤ) - 1) ∧
      (0 : ℤ) ∈ indexTrace 2 1000 [0, 400, 800, 1000] initialState ∧
      (1 : ℤ) ∈ indexTrace 2 1000 [0, 400, 800, 1000] initialState := by
  have hchain : List.Chain' (fun x y => x < y ∧ y - x ≤ 4 / 5 * (1000 : ℚ))
      [0, 400, 800, 1000] := by
    simp [List.chain'_cons, List.chain'_singleton]
    norm_num
  have hmem : ∀ x ∈ ([0, 400, 800, 1000] : List ℚ),
      x ≤ (((2 : ℕ) : ℚ) - 1) * 1000 := by
    intro x hx
    simp at hx
    rcases hx with h | h | h | h <;> rw [h] <;> norm_num
  have hlast : ([0, 400, 800, 1000] : List ℚ).getLast? =
      some ((((2 : ℕ) : ℚ) - 1) * 1000) := by
    have he : ((((2 : ℕ) : ℚ) - 1) * 1000 : ℚ) = 1000 := by norm_num
    rw [he]
    rfl
  have h := c4_monotonic_scan 2 1000 [0, 400, 800, 1000] (by norm_num) (by norm_num)
    rfl hchain hmem hlast
  refine ⟨by norm_num, h.2.1, ?_, h.2.2.2.1 0 (by norm_num) (by norm_num),
    h.2.2.2.1 1 (by norm_num) (by norm_num)⟩
  have h3 := h.2.2.1
  exact_mod_cast h3

/-- Witness for the amended C7: at viewport height 0 and offset 500, a
state at finite index 0 is returned unchanged. -/
theorem c7_witness :
    (⟨JSNum.finite 0, false, Direction.forward⟩ : ScrollStateJS).activeIndex =
        JSNum.finite 0 ∧
      handleScrollJS 2 (JSNum.finite 500) (JSNum.finite 0)
          ⟨JSNum.finite 0, false, Direction.forward⟩ =
        ⟨JSNum.finite 0, false, Direction.forward⟩ :=
  ⟨rfl, c7_zero_height 2 500 0 ⟨JSNum.finite 0, false, Direction.forward⟩ rfl⟩


/-- Witness for C8 at a concrete renderable type and index. -/
theorem c8_witness :
    currentStep ([] : List (Step String)) 3 = none ∧
      renderStep ([] : List (Step String)) 3 = Rendered.titleBody none none :=
  c8_empty_steps String 3
